import Mathlib

/-!
Verification of the bokpipe CCD calibration core (`bokproc.py`) against its
natural-language specification.  The Python functions are shallowly embedded:
images are lists of rows of rationals (machine floats are modelled exactly by
`ℚ`), numpy masked arrays carry explicit boolean masks, Python exceptions
become `Except`/`Option` results, and Python slice semantics (negative
indices, clamping) are reproduced by `pySlice`.
-/

namespace Bok

/-! ## Python list and slice semantics -/

/-- Effective CPython slice bound for a length-`n` sequence: negative
    indices count from the end, and bounds are clamped to `[0, n]`. -/
def sliceIdx (n : ℕ) (a : ℤ) : ℤ :=
  if a < 0 then max 0 (a + n) else min a n

/-- Python slice `l[a:b]` (step 1), exactly as in CPython. -/
def pySlice {α : Type} (l : List α) (a b : ℤ) : List α :=
  (l.drop (sliceIdx l.length a).toNat).take
    (sliceIdx l.length b - sliceIdx l.length a).toNat

/-- Mean of a list of rationals (`sum/len`; 0 for the empty list, which the
    embeddings only reach in situations excluded by explicit hypotheses). -/
def listMean (l : List ℚ) : ℚ := l.sum / l.length

/-- Population variance (`np.ma.var`, ddof = 0). -/
def listVar (l : List ℚ) : ℚ :=
  ((l.map (fun x => (x - listMean l) ^ 2)).sum) / l.length

/-! ## `stats_region` (bokproc.py lines 79–94)

The Python function takes either a tuple (returned as-is, first branch) or a
named tag; an unrecognized tag raises `ValueError` — the error kind the spec
names `UnknownRegionError`.  A Python tuple of any length or content is
modelled by `List ℤ`. -/

inductive RegionError : Type
  | unknownRegion : RegionError
deriving DecidableEq, Repr

/-- Argument accepted by `stats_region`: an arbitrary tuple or a tag string. -/
inductive StatsRegionArg : Type
  | tup : List ℤ → StatsRegionArg
  | tag : String → StatsRegionArg
deriving DecidableEq, Repr

/-- Embedding of `stats_region`. -/
def stats_region : StatsRegionArg → Except RegionError (List ℤ)
  | .tup t => .ok t
  | .tag s =>
    if s = "amp_central_quadrant" then .ok [512, -512, 512, -512]
    else if s = "amp_corner_ccdcenter_small" then .ok [-512, -50, -512, -50]
    else if s = "amp_corner_ccdcenter" then .ok [-1024, -1, -1024, -1]
    else if s = "centeramp_corner_fovcenter" then .ok [50, 1024, 50, 1024]
    else if s = "ccd_central_quadrant" then .ok [1024, -1024, 1024, -1024]
    else .error .unknownRegion

/-- The five recognized named statistics regions. -/
def namedRegionTags : List String :=
  ["amp_central_quadrant", "amp_corner_ccdcenter_small",
   "amp_corner_ccdcenter", "centeramp_corner_fovcenter",
   "ccd_central_quadrant"]

/-! ## Sigma clipping (astropy `sigma_clip`, `cenfunc=np.ma.mean`)

A masked 1-D sample is a list of `(value, masked?)` pairs.  One clipping
iteration recomputes mean and variance over the surviving (unmasked) values
and additionally masks every element farther than `sig` standard deviations
from the mean; `|x-m| > sig*std` is expressed with squares so that all
arithmetic stays in `ℚ`. -/

/-- Values of the unmasked elements. -/
def survivorVals (l : List (ℚ × Bool)) : List ℚ :=
  (l.filter (fun p => !p.2)).map (fun p => p.1)

/-- One sigma-clip iteration. -/
def clipStep (sig : ℚ) (l : List (ℚ × Bool)) : List (ℚ × Bool) :=
  let s := survivorVals l
  let m := listMean s
  let t := sig ^ 2 * listVar s
  l.map (fun p => (p.1, p.2 || decide ((p.1 - m) ^ 2 > t)))

/-- `iters` sigma-clip iterations (`sigma_clip(data, iters=…, sig=…)`). -/
def clipIter (sig : ℚ) : ℕ → List (ℚ × Bool) → List (ℚ × Bool)
  | 0, l => l
  | n + 1, l => clipStep sig (clipIter sig n l)

/-- `np.ma.mean(sigma_clip(vals, iters, sig, cenfunc=np.ma.mean))`: the
    sigma-clipped mean of an (initially unmasked) sample — the sky
    estimator `sky_est` used throughout `bokproc.py`. -/
def skyEst (vals : List ℚ) (iters : ℕ) (sig : ℚ) : ℚ :=
  listMean (survivorVals (clipIter sig iters (vals.map (fun v => (v, false)))))

/-! ## Image cube builder (bokproc.py lines 96–120)

A FITS store maps a file name and extension name to a 2-D image
(rows × cols of rationals).  `np.dstack` of N same-shape images gives a
rows × cols × N cube; cube element `[i][j][k]` is pixel `(i,j)` of image
`k`. -/

/-- Abstract read-only FITS file system: file name → extension → image. -/
def FitsStore : Type := String → String → List (List ℚ)

/-- The `masks` argument of `build_cube`: either a `FileNameMap`-style
    function from a file name to its mask file name, or an explicit
    parallel list of mask file names. -/
inductive MaskSpec : Type
  | map : (String → String) → MaskSpec
  | files : List String → MaskSpec

/-- One depth-line of `np.dstack`: element `j` collects pixel `j` of every
    row in the list. -/
def dstackRow {α : Type} (rows : List (List α)) (z : α) : List (List α) :=
  (List.range (rows.headD []).length).map (fun j => rows.map (fun r => r.getD j z))

/-- `np.dstack`: stack same-shape 2-D images along a new last axis. -/
def dstack {α : Type} (imgs : List (List (List α))) (z : α) : List (List (List α)) :=
  (List.range (imgs.headD []).length).map
    (fun i => dstackRow (imgs.map (fun im => im.getD i [])) z)

/-- The mask files read for a given file list under a `MaskSpec`. -/
def maskImages (store : FitsStore) (fileList : List String) (extn : String) :
    MaskSpec → List (List (List ℚ))
  | .map f => fileList.map (fun g => store (f g) extn)
  | .files fs => fs.map (fun g => store g extn)

/-- `np.ma.masked_array` mask semantics: nonzero mask pixels are masked. -/
def toMaskImg (im : List (List ℚ)) : List (List Bool) :=
  im.map (fun r => r.map (fun v => decide (v ≠ 0)))

/-- A cube together with its optional mask cube
    (`np.ma.masked_array(cube, mask)` with `mask=None` ⇔ `mask = none`). -/
structure MaskedCube : Type where
  data : List (List (List ℚ))
  mask : Option (List (List (List Bool)))

/-- Embedding of `build_cube` (lines 96–106). -/
def build_cube (store : FitsStore) (fileList : List String) (extn : String)
    (masks : Option MaskSpec) : MaskedCube where
  data := dstack (fileList.map (fun f => store f extn)) 0
  mask := masks.map
    (fun ms => dstack ((maskImages store fileList extn ms).map toMaskImg) false)

/-- Embedding of `build_cube_subset` (lines 108–120): identical to
    `build_cube` except every image is row-sliced `[i1:i2,:]` at read
    time. -/
def build_cube_subset (store : FitsStore) (fileList : List String)
    (extn : String) (rows : ℤ × ℤ) (masks : Option MaskSpec) : MaskedCube where
  data := dstack (fileList.map (fun f => pySlice (store f extn) rows.1 rows.2)) 0
  mask := masks.map
    (fun ms => dstack ((maskImages store fileList extn ms).map
      (fun im => toMaskImg (pySlice im rows.1 rows.2))) false)

/-! ## Frame stacker (`stack_image_cube`, bokproc.py lines 269–325)

Modelled on the `scale=None`, `weights=None`, `with_variance=False` path
(the only one the claims exercise; the `stats_region` resolved at entry is
used only by the scaling branch).  Pixel `(i,j)` of the cube is the masked
sample vector along the third axis. -/

/-- Pair the cube with its mask into per-pixel masked sample vectors
    (no mask ⇔ all-false mask). -/
def cubeZip (c : MaskedCube) : List (List (List (ℚ × Bool))) :=
  match c.mask with
  | none => c.data.map (fun row => row.map (fun v => v.map (fun x => (x, false))))
  | some m =>
      List.zipWith (fun drow mrow =>
        List.zipWith (fun dv mv => List.zipWith (fun x b => (x, b)) dv mv) drow mrow)
        c.data m

/-- `np.ma.argmax`: index of the first unmasked maximum (0 when everything
    is masked, matching numpy's minimum fill). -/
def npArgmax (v : List (ℚ × Bool)) : ℕ :=
  ((v.enum.foldl
    (fun acc p =>
      if p.2.2 then acc
      else match acc with
        | none => some (p.1, p.2.1)
        | some q => if p.2.1 > q.2 then some (p.1, p.2.1) else acc)
    none).map (fun q => q.1)).getD 0

/-- `np.ma.argmin`: index of the first unmasked minimum. -/
def npArgmin (v : List (ℚ × Bool)) : ℕ :=
  ((v.enum.foldl
    (fun acc p =>
      if p.2.2 then acc
      else match acc with
        | none => some (p.1, p.2.1)
        | some q => if p.2.1 < q.2 then some (p.1, p.2.1) else acc)
    none).map (fun q => q.1)).getD 0

/-- The `reject='minmax'` branch, with numpy's actual semantics for
    `imcube[:,:,imcube.argmax(axis=-1)] = np.ma.masked`: the 2-D index
    array broadcasts, so every plane index that appears as ANY pixel's
    argmax is masked at ALL pixels; then the same with argmin over what
    remains. -/
def minmaxReject (zc : List (List (List (ℚ × Bool)))) :
    List (List (List (ℚ × Bool))) :=
  let planes1 := (zc.flatMap id).map npArgmax
  let zc1 := zc.map (fun row => row.map (fun v =>
    v.enum.map (fun p => (p.2.1, p.2.2 || planes1.contains p.1))))
  let planes2 := (zc1.flatMap id).map npArgmin
  zc1.map (fun row => row.map (fun v =>
    v.enum.map (fun p => (p.2.1, p.2.2 || planes2.contains p.1))))

/-- Masked mean of a sample vector (`np.ma.average`, no weights): `none`
    when every sample is masked. -/
def maskedMeanPix (v : List (ℚ × Bool)) : Option ℚ :=
  let s := survivorVals v
  if s.isEmpty then none else some (listMean s)

/-- Median of a list (`np.median` convention: average of the two middle
    order statistics for even length). -/
def npMedian (l : List ℚ) : ℚ :=
  let s := l.mergeSort (fun a b => decide (a ≤ b))
  if l.length % 2 = 1 then s.getD (l.length / 2) 0
  else (s.getD (l.length / 2 - 1) 0 + s.getD (l.length / 2) 0) / 2

/-- Masked median of a sample vector (`np.ma.median`). -/
def maskedMedianPix (v : List (ℚ × Bool)) : Option ℚ :=
  let s := survivorVals v
  if s.isEmpty then none else some (npMedian s)

/-- The two `raise ValueError` sites of `stack_image_cube`. -/
inductive StackError : Type
  | unsupportedReject : StackError
  | unsupportedMethod : StackError
deriving DecidableEq, Repr

/-- Embedding of `stack_image_cube` (lines 269–325) on the `scale=None`,
    `weights=None` path: per-pixel rejection (`sigma_clip`, the broadcast
    `minmax`, or none; any other string raises), then combination with
    `mean` or `median` (any other string raises).  A fully-masked output
    pixel is `none`. -/
def stack_image_cube (c : MaskedCube) (reject : Option String) (method : String)
    (clipIters : ℕ) (clipSig : ℚ) :
    Except StackError (List (List (Option ℚ))) :=
  let zc := cubeZip c
  let rej : Except StackError (List (List (List (ℚ × Bool)))) :=
    match reject with
    | some r =>
        if r = "sigma_clip" then
          .ok (zc.map (fun row => row.map (fun v => clipIter clipSig clipIters v)))
        else if r = "minmax" then .ok (minmaxReject zc)
        else .error .unsupportedReject
    | none => .ok zc
  match rej with
  | .error e => .error e
  | .ok zc2 =>
      if method = "mean" then .ok (zc2.map (fun row => row.map maskedMeanPix))
      else if method = "median" then .ok (zc2.map (fun row => row.map maskedMedianPix))
      else .error .unsupportedMethod

/-! ## `stack_bias_frames` (bokproc.py lines 529–580)

Only the order of externally visible effects matters to claim C9, so the
embedding produces an event trace: the output FITS file is created and its
primary header written first, then each extension is cube-stacked and
written.  Defaults from the source: `kwargs.setdefault('method',
'clipped_mean')`, `kwargs.setdefault('clip_iters',1)`, `clip_sig` 2.5,
`reject` defaulting to `'sigma_clip'` inside `stack_image_cube`;
`with_variance` and `check_dropped_rows` default to off.  The dropped-row
repair and the post-stack row-median fill happen between a successful
stack and its extension write and are absorbed into the write event. -/

/-- Externally visible output events of `stack_bias_frames`. -/
inductive BiasEvent : Type
  | createOutput : BiasEvent
  | writePrimaryHeader : BiasEvent
  | writeExtension : String → BiasEvent
deriving DecidableEq, Repr

/-- The per-extension loop of `stack_bias_frames`: build the cube, stack
    it, write it; the first `ValueError` aborts the run. -/
def stack_bias_loop (store : FitsStore) (fileList : List String)
    (method : String) (acc : List BiasEvent) :
    List String → List BiasEvent × Option StackError
  | [] => (acc, none)
  | extn :: rest =>
      match stack_image_cube (build_cube store fileList extn none)
          (some "sigma_clip") method 1 (5/2) with
      | .error e => (acc, some e)
      | .ok _ =>
          stack_bias_loop store fileList method (acc ++ [.writeExtension extn]) rest

/-- Embedding of `stack_bias_frames` on its default path.  `methodKw` is
    the caller's `method` keyword argument (`none` when not passed, in
    which case `setdefault` supplies `'clipped_mean'`). -/
def stack_bias_frames (store : FitsStore) (fileList : List String)
    (methodKw : Option String) (extensions : List String) :
    List BiasEvent × Option StackError :=
  stack_bias_loop store fileList (methodKw.getD "clipped_mean")
    [.createOutput, .writePrimaryHeader] extensions

/-! ## `extract_overscan` (bokproc.py lines 342–360)

`_convertfitsreg` matches the FITS region string against the pattern
bracket, digits, colon, digits, comma, digits, colon, digits, bracket
(`re.match`, so trailing characters are ignored) and subtracts 1 from the
two lower bounds (`rv[0] -= 1; rv[2] -= 1`); a non-matching string raises
(modelled as `none`). -/

/-- Greedy nonempty digit span of `re`'s `\d+`, returning its value and
    the remaining characters. -/
def readNum (cs : List Char) : Option (ℕ × List Char) :=
  let ds := cs.takeWhile Char.isDigit
  if ds.isEmpty then none
  else some (ds.foldl (fun a c => 10 * a + (c.toNat - 48)) 0, cs.dropWhile Char.isDigit)

/-- Consume one expected literal character. -/
def expectChar (c : Char) : List Char → Option (List Char)
  | [] => none
  | x :: xs => if x = c then some xs else none

/-- Embedding of `_convertfitsreg` (lines 71–77). -/
def convertfitsreg (s : String) : Option (ℤ × ℤ × ℤ × ℤ) := do
  let r0 ← expectChar '[' s.data
  let (a, r1) ← readNum r0
  let r2 ← expectChar ':' r1
  let (b, r3) ← readNum r2
  let r4 ← expectChar ',' r3
  let (c, r5) ← readNum r4
  let r6 ← expectChar ':' r5
  let (d, r7) ← readNum r6
  let _ ← expectChar ']' r7
  some ((a : ℤ) - 1, (b : ℤ), (c : ℤ) - 1, (d : ℤ))

/-- 2-D Python slice `im[y1:y2, x1:x2]`. -/
def slice2 (im : List (List ℚ)) (x1 x2 y1 y2 : ℤ) : List (List ℚ) :=
  (pySlice im y1 y2).map (fun row => pySlice row x1 x2)

/-- One amplifier HDU: pixel array plus the header keys `extract_overscan`
    reads (`BIASSEC`, `DATASEC`, `NAXIS2`). -/
structure AmpHDU : Type where
  data : List (List ℚ)
  biassec : String
  datasec : String
  naxis2 : ℤ

/-- Embedding of `extract_overscan`: returns
    `(data, overscan_cols, overscan_rows)` (floats modelled exactly by ℚ);
    `none` when a region string fails to parse (Python raises).  The row
    strip is `data[y2:,:]` and is produced only when `NAXIS2 > y2 + 1`. -/
def extract_overscan (hdu : AmpHDU) :
    Option (List (List ℚ) × List (List ℚ) × Option (List (List ℚ))) := do
  let (bx1, bx2, by1, by2) ← convertfitsreg hdu.biassec
  let overscanCols := slice2 hdu.data bx1 bx2 by1 by2
  let (x1, x2, y1, y2) ← convertfitsreg hdu.datasec
  let overscanRows : Option (List (List ℚ)) :=
    if hdu.naxis2 > y2 + 1 then
      some (pySlice hdu.data y2 (hdu.data.length : ℤ))
    else none
  some (slice2 hdu.data x1 x2 y1 y2, overscanCols, overscanRows)

/-! ## Gain balancing (`multiply_gain`, bokproc.py lines 749–797, and the
per-CCD loop of `combine_ccds`, lines 885–914)

Headers are association lists with most-recent write first (`hdrSet`);
`sky_est` is the sigma-clipped mean `skyEst`; a statistics region
`(x1,x2,y1,y2)` selects `im[y1:y2, x1:x2]`. -/

/-- The four amplifiers nearest the field center, one per CCD. -/
def bokCenterAmps : List String := ["IM4", "IM7", "IM10", "IM13"]

/-- Header write `hdr[k] = v`. -/
def hdrSet (h : List (String × ℚ)) (k : String) (v : ℚ) : List (String × ℚ) :=
  (k, v) :: h

/-- The pixels of `im[y1:y2, x1:x2]` (row-major). -/
def regionPixels (im : List (List ℚ)) (reg : ℤ × ℤ × ℤ × ℤ) : List ℚ :=
  (pySlice im reg.2.2.1 reg.2.2.2).flatMap (fun row => pySlice row reg.1 reg.2.1)

/-- `'%02d' % n`. -/
def fmtTwo (n : ℕ) : String := if n < 10 then "0" ++ toString n else toString n

/-- `'ABCD'[i]`. -/
def ampLetter (i : ℕ) : String := ["A", "B", "C", "D"].getD i ""

/-- `'IM'`-deletion at character level (`ext.replace('IM','')`): remove
    every non-overlapping occurrence of the two-character pattern,
    scanning left to right as CPython does. -/
def dropIM : List Char → List Char
  | 'I' :: 'M' :: rest => dropIM rest
  | c :: rest => c :: dropIM rest
  | [] => []

/-- Decimal value of a digit string (`int(...)` on the numeric strings the
    source exercises). -/
def digitsToNat (cs : List Char) : ℕ :=
  cs.foldl (fun a c => 10 * a + (c.toNat - 48)) 0

/-- `int(ext.replace('IM',''))`. -/
def chNum (ext : String) : ℕ := digitsToNat (dropIM ext.data)

/-- `'GAIN%02d%s' % (chNum, 'ABCD'[i])` followed by the stage digit. -/
def gainKey (ext : String) (i : ℕ) (stage : String) : String :=
  "GAIN" ++ fmtTwo (chNum ext) ++ ampLetter i ++ stage

/-- `'SKYC%02d%s1' % (chNum, 'ABCD'[i])`. -/
def skyKey (ext : String) (i : ℕ) : String :=
  "SKYC" ++ fmtTwo (chNum ext) ++ ampLetter i ++ "1"

/-- Multiply an image by a scalar gain (`im * g`). -/
def imScale (g : ℚ) (im : List (List ℚ)) : List (List ℚ) :=
  im.map (fun r => r.map (fun v => v * g))

/-- Return value of `multiply_gain`: the gain-multiplied amplifier images,
    the center-amplifier sky counts (`None` when sky correction is off),
    and the annotated header. -/
structure GainResult : Type where
  ampIms : List (List (List ℚ))
  skyCounts : Option ℚ
  hdr : List (String × ℚ)

/-- Embedding of `multiply_gain` (lines 749–797).  `np.where(extGroup ==
    refAmp)[0][0]` and the singleton set intersection pop are total in the
    source's calling convention (`refAmp`, and exactly one of
    `bokCenterAmps`, always belong to `extGroup`); `List.indexOf` and the
    first matching element model them there. -/
def multiply_gain (inFits : String → List (List ℚ)) (extGroup : List String)
    (hdr0 : List (String × ℚ)) (skyGainCor : Bool) (inputGain : String → ℚ)
    (ampCorStatReg ccdCorStatReg : ℤ × ℤ × ℤ × ℤ) (clipIters : ℕ) (clipSig : ℚ)
    (skyIn : Option ℚ) (refAmp : String) : GainResult :=
  let ampIms := extGroup.map inFits
  let gain := extGroup.map inputGain
  if skyGainCor then
    let rawSky := ampIms.map
      (fun im => skyEst (regionPixels im ampCorStatReg) clipIters clipSig)
    let skyCountsA := List.zipWith (fun s g => s * g) rawSky gain
    let refAmpIndex := extGroup.indexOf refAmp
    let gain2 := skyCountsA.map (fun s => skyCountsA.getD refAmpIndex 0 / s)
    let centerAmp := (extGroup.filter (fun e => bokCenterAmps.contains e)).headD ""
    let ci := extGroup.indexOf centerAmp
    let skyC := skyEst (regionPixels (ampIms.getD ci []) ccdCorStatReg) clipIters clipSig
      * (gain.getD ci 0 * gain2.getD ci 0)
    let gain3 : ℚ := match skyIn with
      | none => 1
      | some s => s / skyC
    let hdr1 := (extGroup.enum).foldl
      (fun h p =>
        hdrSet (hdrSet (hdrSet h (skyKey p.2 p.1) (rawSky.getD p.1 0))
          (gainKey p.2 p.1 "1") (gain.getD p.1 0))
          (gainKey p.2 p.1 "2") (gain2.getD p.1 0))
      hdr0
    let hdr2 := hdrSet hdr1 "CCDGAIN3" gain3
    let gainF := List.zipWith (fun g g2 => g * (g2 * gain3)) gain gain2
    { ampIms := List.zipWith (fun im g => imScale g im) ampIms gainF
      skyCounts := some skyC
      hdr := hdr2 }
  else
    { ampIms := List.zipWith (fun im g => imScale g im) ampIms gain
      skyCounts := none
      hdr := (extGroup.enum).foldl
        (fun h p => hdrSet h (gainKey p.2 p.1 "1") (gain.getD p.1 0)) hdr0 }

/-- The per-CCD loop body of `combine_ccds` (lines 885–914) for one input
    file: the sixteen extensions are processed in numerical order, split
    into the four CCD groups, each balanced by `multiply_gain` with the
    fixed reference amplifiers `['IM2','IM8','IM11','IM16']`; the header
    seeded for CCD `n` is read from its center amplifier
    (`bokCenterAmps[n-1]`); `refSkyCounts` starts as `None` and is set from
    the result of CCD 1 only.  Each list entry records the `skyIn` passed
    to that CCD's `multiply_gain` together with its result; mosaic
    orientation and FITS output are downstream of the gain step and are
    modelled separately. -/
def combine_ccds_run (inFits : String → List (List ℚ))
    (hdrOf : String → List (String × ℚ)) (inputGain : String → ℚ)
    (skyGainCor : Bool) (ampCorStatReg ccdCorStatReg : ℤ × ℤ × ℤ × ℤ)
    (clipIters : ℕ) (clipSig : ℚ) : List (Option ℚ × GainResult) :=
  let r1 := multiply_gain inFits ["IM1", "IM2", "IM3", "IM4"] (hdrOf "IM4")
    skyGainCor inputGain ampCorStatReg ccdCorStatReg clipIters clipSig none "IM2"
  let refSky := r1.skyCounts
  let r2 := multiply_gain inFits ["IM5", "IM6", "IM7", "IM8"] (hdrOf "IM7")
    skyGainCor inputGain ampCorStatReg ccdCorStatReg clipIters clipSig refSky "IM8"
  let r3 := multiply_gain inFits ["IM9", "IM10", "IM11", "IM12"] (hdrOf "IM10")
    skyGainCor inputGain ampCorStatReg ccdCorStatReg clipIters clipSig refSky "IM11"
  let r4 := multiply_gain inFits ["IM13", "IM14", "IM15", "IM16"] (hdrOf "IM13")
    skyGainCor inputGain ampCorStatReg ccdCorStatReg clipIters clipSig refSky "IM16"
  [(none, r1), (refSky, r2), (refSky, r3), (refSky, r4)]

/-! ## Mosaic assembly (`_orient_mosaic`, bokproc.py lines 799–822)

2-D numpy arrays are embedded as a shape plus a total pixel function (only
in-range pixels are ever compared).  `np.rot90` rotates counterclockwise:
for an `r × c` array the result is `c × r` with `out[i][j] = m[j][c-1-i]`. -/

/-- A 2-D array: shape and pixel function. -/
structure Img : Type where
  ny : ℕ
  nx : ℕ
  px : ℕ → ℕ → ℚ

/-- `np.rot90(m)` (one counterclockwise quarter turn). -/
def rot90 (m : Img) : Img :=
  ⟨m.nx, m.ny, fun i j => m.px j (m.nx - 1 - i)⟩

/-- `np.rot90(m, k)`. -/
def rot90n (m : Img) : ℕ → Img
  | 0 => m
  | k + 1 => rot90 (rot90n m k)

/-- `np.flipud`. -/
def flipud (m : Img) : Img :=
  ⟨m.ny, m.nx, fun i j => m.px (m.ny - 1 - i) j⟩

/-- `np.fliplr`. -/
def fliplr (m : Img) : Img :=
  ⟨m.ny, m.nx, fun i j => m.px i (m.nx - 1 - j)⟩

/-- `np.hstack` of two blocks (same height in the source's use). -/
def hstack (a b : Img) : Img :=
  ⟨a.ny, a.nx + b.nx, fun i j => if j < a.nx then a.px i j else b.px i (j - a.nx)⟩

/-- `np.vstack` of two blocks (same width in the source's use). -/
def vstack (a b : Img) : Img :=
  ⟨a.ny + b.ny, a.nx, fun i j => if i < a.ny then a.px i j else b.px (i - a.ny) j⟩

/-- The image portion of `_orient_mosaic` (lines 799–822): per-amplifier
    reorientation, 2×2 tiling, and the whole-mosaic per-CCD transform of
    the `center` origin convention.  The header keyword synthesis of lines
    817–857 is downstream of the pixel content and not referenced by the
    claims. -/
def orient_mosaic_im (im1 im2 im3 im4 : Img) (ccdNum : ℕ) (origin : String) : Img :=
  let outIm := vstack (hstack (flipud (rot90n im2 1)) (rot90n im4 3))
    (hstack (rot90n im1 1) (fliplr (rot90n im3 1)))
  if origin = "lower left" then outIm
  else if origin = "center" then
    if ccdNum = 1 then fliplr outIm
    else if ccdNum = 2 then rot90n outIm 2
    else if ccdNum = 3 then outIm
    else if ccdNum = 4 then flipud outIm
    else outIm
  else outIm

/-! ## Sky fitting and subtraction (bokproc.py lines 122–209 and 980–1012)

`subtract_sky` fits one 2-D degree-1 polynomial (`bok_polyfit(inFits, 64,
1)`) to the sigma-clipped, 64×64-rebinned 4-CCD mosaic in `'sky'`
coordinates and subtracts `fit − fit(0,0)` from every pixel, recording
`fit(0,0)` as `SKYVAL`.

The embedding: a CCD frame is a shape, a total pixel function, an
object/defect mask (all `false` when no mask file is given) and the header
fields `bok_getxy` reads.  `bok_rebin` tiles the frame into `nbin × nbin`
cells (`ny/nbin × nx/nbin` of them — `reshape` requires exact divisibility,
which the 4032×4096 Bok mosaics satisfy for `nbin = 64`).  `sigma_clip`
with `iters=2, sig=2.5, cenfunc=mean` is applied globally per CCD (astropy
default `axis=None`): each iteration masks every pixel whose squared
distance from the surviving mean exceeds `sig²·var`.  A cell is kept when
`NOT (nbad < nbin*2//3)` (the source's `too_few_pixels` test); kept cells
contribute `(x_center, y_center, mean of surviving pixels)`.  The degree-1
`Polynomial2D` least-squares fit of astropy's `LinearLSQFitter` (numpy
`lstsq`) is modelled by the normal equations solved with Cramer's rule,
which is the `lstsq` solution whenever the normal matrix is invertible
(`lsqDet ≠ 0`); the degenerate case returns the zero polynomial. -/

/-- The WCS header fields read by `bok_getxy(hdr, 'sky')`. -/
structure SkyHdr : Type where
  crpix1 : ℚ
  crpix2 : ℚ
  cd11 : ℚ
  cd12 : ℚ
  cd21 : ℚ
  cd22 : ℚ

/-- One CCD extension of a mosaic file: shape, pixels, object mask and
    header. -/
structure CCDFrame : Type where
  ny : ℕ
  nx : ℕ
  data : ℕ → ℕ → ℚ
  mask : ℕ → ℕ → Bool
  hdr : SkyHdr

/-- `np.sign`. -/
def qsign (q : ℚ) : ℚ := if q < 0 then -1 else if q = 0 then 0 else 1

/-- Sky x-coordinate of pixel column `j`
    (`np.sign(CD1_1+CD2_1) * (x - CRPIX1)`). -/
def xCoord (h : SkyHdr) (j : ℕ) : ℚ := qsign (h.cd11 + h.cd21) * ((j : ℚ) - h.crpix1)

/-- Sky y-coordinate of pixel row `i`
    (`np.sign(CD1_2+CD2_2) * (y - CRPIX2)`). -/
def yCoord (h : SkyHdr) (i : ℕ) : ℚ := qsign (h.cd12 + h.cd22) * ((i : ℚ) - h.crpix2)

/-- The currently surviving pixel values of the rebinned frame (row-major
    over the `ny/nbin*nbin × nx/nbin*nbin` cell-covered area), over which
    each global sigma-clip iteration computes its statistics. -/
def gridVals (F : CCDFrame) (nbin : ℕ) (mk : ℕ → ℕ → Bool) : List ℚ :=
  (List.range (F.ny / nbin * nbin)).flatMap
    (fun i => (List.range (F.nx / nbin * nbin)).filterMap
      (fun j => if mk i j then none else some (F.data i j)))

/-- One global sigma-clip iteration: additionally mask every pixel with
    `(v - mean)² > sig²·var` of the surviving population. -/
def clipMaskStep (F : CCDFrame) (nbin : ℕ) (sig : ℚ) (mk : ℕ → ℕ → Bool) :
    ℕ → ℕ → Bool :=
  fun i j =>
    mk i j || decide ((F.data i j - listMean (gridVals F nbin mk)) ^ 2
      > sig ^ 2 * listVar (gridVals F nbin mk))

/-- The mask after `t` global sigma-clip iterations, starting from the
    frame's own object mask. -/
def ccdClipMask (F : CCDFrame) (nbin : ℕ) (sig : ℚ) : ℕ → (ℕ → ℕ → Bool)
  | 0 => F.mask
  | t + 1 => clipMaskStep F nbin sig (ccdClipMask F nbin sig t)

/-- Surviving pixel values of cell `(I,J)` (row-major within the cell,
    matching `bok_rebin`'s reshape order). -/
def cellSurvivors (F : CCDFrame) (nbin : ℕ) (mk : ℕ → ℕ → Bool) (I J : ℕ) :
    List ℚ :=
  (List.range nbin).flatMap (fun a => (List.range nbin).filterMap
    (fun b => if mk (I * nbin + a) (J * nbin + b) then none
              else some (F.data (I * nbin + a) (J * nbin + b))))

/-- Number of masked pixels of cell `(I,J)` (`clippedIm.mask.sum(axis=-1)`). -/
def cellNbad (nbin : ℕ) (mk : ℕ → ℕ → Bool) (I J : ℕ) : ℕ :=
  ((List.range nbin).map (fun a =>
    ((List.range nbin).filter (fun b => mk (I * nbin + a) (J * nbin + b))).length)).sum

/-- The fit points contributed by one CCD: for every kept cell (`nbad ≥
    nbin*2//3` — the source keeps `~too_few_pixels` where `too_few_pixels
    = nbad < nbin*2//3`), the subsampled cell-center sky coordinates
    (`x[nbin//2::nbin]`) and the mean surviving pixel value.  `iters=2`,
    `sig=2.5` as hard-coded in `bok_polyfit`. -/
def ccdPoints (F : CCDFrame) (nbin : ℕ) : List (ℚ × ℚ × ℚ) :=
  (List.range (F.ny / nbin)).flatMap (fun I =>
    (List.range (F.nx / nbin)).filterMap (fun J =>
      if cellNbad nbin (ccdClipMask F nbin (5/2) 2) I J < nbin * 2 / 3 then none
      else some (xCoord F.hdr (nbin / 2 + J * nbin),
        yCoord F.hdr (nbin / 2 + I * nbin),
        listMean (cellSurvivors F nbin (ccdClipMask F nbin (5/2) 2) I J))))

/-- A 4-CCD mosaic file (`CCD1..CCD4`). -/
def Mosaic : Type := Fin 4 → CCDFrame

/-- All fit points, CCDs concatenated in order (`X = np.concatenate(X)`). -/
def allPoints (m : Mosaic) (nbin : ℕ) : List (ℚ × ℚ × ℚ) :=
  (List.finRange 4).flatMap (fun k => ccdPoints (m k) nbin)

/-- 3×3 determinant (row-major entries). -/
def det3 (a b c d e f g h i : ℚ) : ℚ :=
  a * (e * i - f * h) - b * (d * i - f * g) + c * (d * h - e * g)

/-- Coefficients of the degree-1 `Polynomial2D`: `p(x,y) = c0 + c1·x + c2·y`. -/
structure Fit3 : Type where
  c0 : ℚ
  c1 : ℚ
  c2 : ℚ

/-- Normal-equation sums of the design matrix rows `(1, x, y)`. -/
def sumS (pts : List (ℚ × ℚ × ℚ)) : ℚ := pts.length

/-- `Σ x`. -/
def sumX (pts : List (ℚ × ℚ × ℚ)) : ℚ := (pts.map (fun p => p.1)).sum

/-- `Σ y`. -/
def sumY (pts : List (ℚ × ℚ × ℚ)) : ℚ := (pts.map (fun p => p.2.1)).sum

/-- `Σ x²`. -/
def sumXX (pts : List (ℚ × ℚ × ℚ)) : ℚ := (pts.map (fun p => p.1 * p.1)).sum

/-- `Σ x·y`. -/
def sumXY (pts : List (ℚ × ℚ × ℚ)) : ℚ := (pts.map (fun p => p.1 * p.2.1)).sum

/-- `Σ y²`. -/
def sumYY (pts : List (ℚ × ℚ × ℚ)) : ℚ := (pts.map (fun p => p.2.1 * p.2.1)).sum

/-- `Σ v`. -/
def sumV (pts : List (ℚ × ℚ × ℚ)) : ℚ := (pts.map (fun p => p.2.2)).sum

/-- `Σ x·v`. -/
def sumXV (pts : List (ℚ × ℚ × ℚ)) : ℚ := (pts.map (fun p => p.1 * p.2.2)).sum

/-- `Σ y·v`. -/
def sumYV (pts : List (ℚ × ℚ × ℚ)) : ℚ := (pts.map (fun p => p.2.1 * p.2.2)).sum

/-- Determinant of the normal matrix `AᵀA` for the basis `(1, x, y)`. -/
def lsqDet (pts : List (ℚ × ℚ × ℚ)) : ℚ :=
  det3 (sumS pts) (sumX pts) (sumY pts)
    (sumX pts) (sumXX pts) (sumXY pts)
    (sumY pts) (sumXY pts) (sumYY pts)

/-- Linear least squares for `v ≈ c0 + c1·x + c2·y` by Cramer's rule on
    the normal equations — numpy `lstsq`'s solution whenever the normal
    matrix is invertible; zero polynomial in the degenerate case. -/
def lsqFit (pts : List (ℚ × ℚ × ℚ)) : Fit3 :=
  if lsqDet pts = 0 then ⟨0, 0, 0⟩
  else
    ⟨det3 (sumV pts) (sumX pts) (sumY pts)
        (sumXV pts) (sumXX pts) (sumXY pts)
        (sumYV pts) (sumXY pts) (sumYY pts) / lsqDet pts,
     det3 (sumS pts) (sumV pts) (sumY pts)
        (sumX pts) (sumXV pts) (sumXY pts)
        (sumY pts) (sumYV pts) (sumYY pts) / lsqDet pts,
     det3 (sumS pts) (sumX pts) (sumV pts)
        (sumX pts) (sumXX pts) (sumXV pts)
        (sumY pts) (sumXY pts) (sumYV pts) / lsqDet pts⟩

/-- `p(x, y)` for the degree-1 polynomial. -/
def polyEval (p : Fit3) (x y : ℚ) : ℚ := p.c0 + p.c1 * x + p.c2 * y

/-- `bok_polyfit(fits, nbin, 1)`: the fitted sky model of the whole
    mosaic. -/
def bok_polyfit (m : Mosaic) (nbin : ℕ) : Fit3 := lsqFit (allPoints m nbin)

/-- The per-CCD output loop of `subtract_sky` at rebinning factor `nbin`:
    every output pixel is the input pixel minus `(fit at the pixel's sky
    coordinates − fit(0,0))`, and `fit(0,0)` is returned as the `SKYVAL`
    header value. -/
def subtract_sky_ccds (nbin : ℕ) (m : Mosaic) : (Fin 4 → ℕ → ℕ → ℚ) × ℚ :=
  (fun k i j => (m k).data i j
      - (polyEval (bok_polyfit m nbin) (xCoord (m k).hdr j) (yCoord (m k).hdr i)
        - polyEval (bok_polyfit m nbin) 0 0),
   polyEval (bok_polyfit m nbin) 0 0)

/-- `subtract_sky` (lines 980–1012): the rebinning factor is hard-coded to
    64 in `bok_polyfit(inFits, 64, 1, maskFits)`. -/
def subtract_sky (m : Mosaic) : (Fin 4 → ℕ → ℕ → ℚ) × ℚ := subtract_sky_ccds 64 m

/-- Add a constant to every pixel of a frame (mask and header unchanged). -/
def shiftFrame (F : CCDFrame) (c : ℚ) : CCDFrame :=
  { F with data := fun i j => F.data i j + c }

/-- Add a constant to every pixel of a mosaic. -/
def shiftMosaic (m : Mosaic) (c : ℚ) : Mosaic := fun k => shiftFrame (m k) c

/-- Add a constant to the data value of a fit point. -/
def shiftPt (c : ℚ) (p : ℚ × ℚ × ℚ) : ℚ × ℚ × ℚ := (p.1, p.2.1, p.2.2 + c)

end Bok

/-! ## Claims C7 and C10 -/

/-- C7: for every region-tag string that is not one of the recognized named
    statistics regions, `stats_region` fails with the unknown-region error
    (the spec's `UnknownRegionError`, a bare `ValueError` in the source),
    purely — before any I/O can be performed by the calling operation. -/
theorem C7_stats_region_unknown_tag_errors (s : String)
    (h : s ∉ Bok.namedRegionTags) :
    Bok.stats_region (.tag s) = .error .unknownRegion := by
  simp only [Bok.namedRegionTags, List.mem_cons, List.mem_singleton,
    not_or] at h
  obtain ⟨h1, h2, h3, h4, h5, -⟩ := h
  simp [Bok.stats_region, h1, h2, h3, h4, h5]

/-- Witness for C7 at the concrete unrecognized tag "sky_quadrant". -/
theorem C7_stats_region_unknown_tag_errors_witness :
    Bok.stats_region (.tag "sky_quadrant") = .error .unknownRegion :=
  C7_stats_region_unknown_tag_errors "sky_quadrant" (by decide)

/-- C10: any argument that is already a tuple is returned unchanged by
    `stats_region`, with no validation of its length or contents; in
    particular the empty tuple and a 2-tuple bypass both the named-region
    table and the unknown-tag error path. -/
theorem C10_stats_region_tuple_passthrough (t : List ℤ) :
    Bok.stats_region (.tup t) = .ok t := rfl

/-! ## Claim C1 -/

/-- A 1×2×3 cube (two pixels, three frames, no input mask): pixel (0,0)
    holds samples (3,1,2) and pixel (0,1) holds (1,3,2). -/
def cubeC1 : Bok.MaskedCube := { data := [[[3, 1, 2], [1, 3, 2]]], mask := none }

/-- C1 fails on the code: `reject='minmax'` does NOT mask the per-pixel
    max and min independently.  `imcube[:,:,imcube.argmax(axis=-1)] =
    np.ma.masked` broadcasts the 2-D argmax index array, masking every
    plane that is ANY pixel's argmax at ALL pixels (and then likewise for
    argmin over the remainder).  On `cubeC1` the per-pixel argmaxes are
    planes 0 and 1, so both are masked everywhere; the remaining plane 2
    is then every pixel's argmin and is masked too.  Every pixel ends with
    ZERO contributors and the mean-combined result is fully masked
    (`none`), whereas the claim demands exactly one contributor per pixel
    with the result equal to it (pixel (0,0): 2, pixel (0,1): 2). -/
theorem C1_minmax_broadcast_bug :
    Bok.stack_image_cube cubeC1 (some "minmax") "mean" 2 (5/2)
      = .ok [[none, none]] := rfl

/-! ## Claim C9 -/

/-- C9: a call of `stack_bias_frames` that does not pass a `method`
    keyword defaults it (via `setdefault`) to `'clipped_mean'`, which
    `stack_image_cube` recognizes neither as `'mean'` nor `'median'`, so
    stacking the first extension always raises the unsupported-method
    `ValueError` — after the output bias file has been created and its
    primary header written, as the event trace records. -/
theorem C9_default_method_always_raises (store : Bok.FitsStore)
    (fileList : List String) (extn : String) (rest : List String) :
    Bok.stack_bias_frames store fileList none (extn :: rest)
      = ([.createOutput, .writePrimaryHeader], some .unsupportedMethod) := rfl

/-! ## Claim C5: partial-row cube extraction -/

namespace Bok

theorem sliceIdx_natCast (n i : ℕ) (h : i ≤ n) : sliceIdx n (i : ℤ) = (i : ℤ) := by
  simp only [sliceIdx]
  omega

theorem pySlice_eq_drop_take {α : Type} (l : List α) (i1 i2 : ℕ)
    (h1 : i1 ≤ i2) (h2 : i2 ≤ l.length) :
    pySlice l (i1 : ℤ) (i2 : ℤ) = (l.drop i1).take (i2 - i1) := by
  simp only [pySlice, sliceIdx_natCast _ _ (le_trans h1 h2), sliceIdx_natCast _ _ h2]
  have e1 : ((i1 : ℤ)).toNat = i1 := by omega
  have e2 : ((i2 : ℤ) - (i1 : ℤ)).toNat = i2 - i1 := by omega
  rw [e1, e2]

theorem pySlice_nat_length {α : Type} (l : List α) (i1 i2 : ℕ)
    (h1 : i1 ≤ i2) (h2 : i2 ≤ l.length) :
    (pySlice l (i1 : ℤ) (i2 : ℤ)).length = i2 - i1 := by
  rw [pySlice_eq_drop_take l i1 i2 h1 h2]
  simp only [List.length_take, List.length_drop]
  omega

theorem pySlice_nat_getD {α : Type} (l : List α) (i1 i2 k : ℕ) (d : α)
    (hk : k < i2 - i1) (h2 : i2 ≤ l.length) :
    (pySlice l (i1 : ℤ) (i2 : ℤ)).getD k d = l.getD (i1 + k) d := by
  rw [pySlice_eq_drop_take l i1 i2 (by omega) h2]
  rw [List.getD_eq_getElem?_getD, List.getD_eq_getElem?_getD]
  rw [List.getElem?_take, List.getElem?_drop]
  simp [hk]

theorem getD_map_range {α : Type} (N : ℕ) (g : ℕ → α) (k : ℕ) (d : α) :
    (((List.range N).map g).getD k d) = if k < N then g k else d := by
  by_cases h : k < N
  · rw [List.getD_eq_getElem?_getD, List.getElem?_map, List.getElem?_range h]
    simp [h]
  · rw [List.getD_eq_getElem?_getD, List.getElem?_map]
    rw [List.getElem?_eq_none (by simpa using not_lt.mp h)]
    simp [h]

theorem toMaskImg_pySlice (im : List (List ℚ)) (a b : ℤ) :
    toMaskImg (pySlice im a b) = pySlice (toMaskImg im) a b := by
  simp only [toMaskImg, pySlice, List.length_map, List.map_take, List.map_drop]

theorem toMaskImg_length (im : List (List ℚ)) :
    (toMaskImg im).length = im.length := by
  simp [toMaskImg]

end Bok

namespace Bok

theorem dstack_length {α : Type} (imgs : List (List (List α))) (z : α) :
    (dstack imgs z).length = (imgs.headD []).length := by
  simp [dstack]

theorem dstack_getD {α : Type} (imgs : List (List (List α))) (z : α) (k : ℕ) :
    (dstack imgs z).getD k [] =
      if k < (imgs.headD []).length then
        dstackRow (imgs.map (fun im => im.getD k [])) z
      else [] := by
  simp only [dstack]
  exact getD_map_range _ _ k []

/-- Core of C5 for one dstacked image list: the row-sliced images, dstacked,
    agree row-by-row with the dstacked full images shifted by `i1`. -/
theorem dstack_pySlice_getD {α : Type} (imgs : List (List (List α))) (z : α)
    (n i1 i2 k : ℕ) (h12 : i1 ≤ i2) (h2n : i2 ≤ n)
    (hn : ∀ im ∈ imgs, im.length = n) (hk : k < i2 - i1) :
    (dstack (imgs.map (fun im => pySlice im (i1 : ℤ) (i2 : ℤ))) z).getD k []
      = (dstack imgs z).getD (i1 + k) [] := by
  rw [dstack_getD, dstack_getD]
  match imgs, hn with
  | [], _ => simp
  | im0 :: rest, hn =>
    have h0 : im0.length = n := hn im0 (by simp)
    have hsub : ((im0 :: rest).map (fun im => pySlice im (i1 : ℤ) (i2 : ℤ))).headD [] =
        pySlice im0 (i1 : ℤ) (i2 : ℤ) := by simp
    rw [hsub, pySlice_nat_length im0 i1 i2 h12 (by rw [h0]; exact h2n), if_pos hk]
    have h1k : i1 + k < ((im0 :: rest).headD []).length := by
      simp only [List.headD_cons, h0]; omega
    rw [if_pos h1k]
    congr 1
    rw [List.map_map]
    apply List.map_congr_left
    intro im him
    simp only [Function.comp_apply]
    exact pySlice_nat_getD im i1 i2 k [] hk (by rw [hn im him]; exact h2n)

/-- Length of the dstacked row-sliced cube. -/
theorem dstack_pySlice_length {α : Type} (imgs : List (List (List α))) (z : α)
    (n i1 i2 : ℕ) (h12 : i1 ≤ i2) (h2n : i2 ≤ n)
    (hn : ∀ im ∈ imgs, im.length = n) (hne : imgs ≠ []) :
    (dstack (imgs.map (fun im => pySlice im (i1 : ℤ) (i2 : ℤ))) z).length
      = i2 - i1 := by
  rw [dstack_length]
  match imgs, hn, hne with
  | im0 :: rest, hn, _ =>
    have h0 : im0.length = n := hn im0 (by simp)
    simp only [List.map_cons, List.headD_cons]
    exact pySlice_nat_length im0 i1 i2 h12 (by rw [h0]; exact h2n)

end Bok

/-- C5: for every file list, extension, optional mask specification and row
    range `(i1, i2)` (with `0 ≤ i1 ≤ i2 ≤` the common image height),
    `build_cube_subset` returns data and mask cubes pixel-identical to rows
    `i1 .. i2-1` of the full cubes built by `build_cube` over the same
    inputs: the subset data cube has `i2-i1` rows, its row `k` equals the
    full data cube's row `i1+k`, and when masks are requested the subset
    mask cube likewise matches the corresponding rows of the full mask
    cube. -/
theorem C5_build_cube_subset_matches_full (store : Bok.FitsStore)
    (fileList : List String) (extn : String) (masks : Option Bok.MaskSpec)
    (n i1 i2 : ℕ) (h12 : i1 ≤ i2) (h2n : i2 ≤ n)
    (hn : ∀ f ∈ fileList, (store f extn).length = n)
    (hm : ∀ ms ∈ masks, ∀ im ∈ Bok.maskImages store fileList extn ms, im.length = n) :
    (fileList ≠ [] →
      (Bok.build_cube_subset store fileList extn ((i1 : ℤ), (i2 : ℤ)) masks).data.length
        = i2 - i1)
    ∧ (∀ k, k < i2 - i1 →
      (Bok.build_cube_subset store fileList extn ((i1 : ℤ), (i2 : ℤ)) masks).data.getD k []
        = (Bok.build_cube store fileList extn masks).data.getD (i1 + k) [])
    ∧ (∀ ms ∈ masks,
        ∃ subm fullm,
          (Bok.build_cube_subset store fileList extn ((i1 : ℤ), (i2 : ℤ)) masks).mask = some subm
          ∧ (Bok.build_cube store fileList extn masks).mask = some fullm
          ∧ (Bok.maskImages store fileList extn ms ≠ [] → subm.length = i2 - i1)
          ∧ (∀ k, k < i2 - i1 → subm.getD k [] = fullm.getD (i1 + k) [])) := by
  have hdata : (fileList.map (fun f => Bok.pySlice (store f extn) (i1 : ℤ) (i2 : ℤ)))
      = (fileList.map (fun f => store f extn)).map
          (fun im => Bok.pySlice im (i1 : ℤ) (i2 : ℤ)) := by
    rw [List.map_map]; rfl
  have hlen : ∀ im ∈ fileList.map (fun f => store f extn), im.length = n := by
    intro im him
    obtain ⟨f, hf, rfl⟩ := List.mem_map.mp him
    exact hn f hf
  refine ⟨?_, ?_, ?_⟩
  · intro hne
    show (Bok.dstack _ _).length = i2 - i1
    rw [hdata]
    exact Bok.dstack_pySlice_length _ _ n i1 i2 h12 h2n hlen
      (by simpa using hne)
  · intro k hk
    show (Bok.dstack _ _).getD k [] = (Bok.dstack _ _).getD (i1 + k) []
    rw [hdata]
    exact Bok.dstack_pySlice_getD _ _ n i1 i2 k h12 h2n hlen hk
  · intro ms hms
    rw [Option.mem_def] at hms
    subst hms
    have hmimg : ((Bok.maskImages store fileList extn ms).map
        (fun im => Bok.toMaskImg (Bok.pySlice im (i1 : ℤ) (i2 : ℤ))))
        = ((Bok.maskImages store fileList extn ms).map Bok.toMaskImg).map
            (fun im => Bok.pySlice im (i1 : ℤ) (i2 : ℤ)) := by
      rw [List.map_map]
      apply List.map_congr_left
      intro im _
      exact Bok.toMaskImg_pySlice im (i1 : ℤ) (i2 : ℤ)
    have hmlen : ∀ im ∈ (Bok.maskImages store fileList extn ms).map Bok.toMaskImg,
        im.length = n := by
      intro im him
      obtain ⟨im0, him0, rfl⟩ := List.mem_map.mp him
      rw [Bok.toMaskImg_length]
      exact hm ms rfl im0 him0
    refine ⟨_, _, rfl, rfl, ?_, ?_⟩
    · intro hne
      show (Bok.dstack _ _).length = i2 - i1
      rw [hmimg]
      refine Bok.dstack_pySlice_length _ _ n i1 i2 h12 h2n hmlen ?_
      simpa using hne
    · intro k hk
      show (Bok.dstack _ _).getD k [] = (Bok.dstack _ _).getD (i1 + k) []
      rw [hmimg]
      exact Bok.dstack_pySlice_getD _ _ n i1 i2 k h12 h2n hmlen hk

/-- Witness for C5 at a concrete two-file store with 2×2 images, mask files
    and row range (1,2). -/
theorem C5_build_cube_subset_matches_full_witness :
    ((["a", "b"] : List String) ≠ [] →
      (Bok.build_cube_subset (fun _ _ => [[1, 2], [3, 4]]) ["a", "b"] "X"
        ((1 : ℤ), (2 : ℤ)) (some (.files ["m"]))).data.length = 2 - 1)
    ∧ (∀ k, k < 2 - 1 →
      (Bok.build_cube_subset (fun _ _ => [[1, 2], [3, 4]]) ["a", "b"] "X"
        ((1 : ℤ), (2 : ℤ)) (some (.files ["m"]))).data.getD k []
        = (Bok.build_cube (fun _ _ => [[1, 2], [3, 4]]) ["a", "b"] "X"
            (some (.files ["m"]))).data.getD (1 + k) [])
    ∧ (∀ ms ∈ some (Bok.MaskSpec.files ["m"]),
        ∃ subm fullm,
          (Bok.build_cube_subset (fun _ _ => [[1, 2], [3, 4]]) ["a", "b"] "X"
            ((1 : ℤ), (2 : ℤ)) (some (.files ["m"]))).mask = some subm
          ∧ (Bok.build_cube (fun _ _ => [[1, 2], [3, 4]]) ["a", "b"] "X"
              (some (.files ["m"]))).mask = some fullm
          ∧ (Bok.maskImages (fun _ _ => [[1, 2], [3, 4]]) ["a", "b"] "X" ms ≠ [] →
              subm.length = 2 - 1)
          ∧ (∀ k, k < 2 - 1 → subm.getD k [] = fullm.getD (1 + k) [])) :=
  C5_build_cube_subset_matches_full (fun _ _ => [[1, 2], [3, 4]]) ["a", "b"] "X"
    (some (.files ["m"])) 2 1 2 (by decide) (by decide) (by decide)
    (by
      intro ms hms
      rw [Option.mem_def] at hms
      injection hms with h
      subst h
      decide)

/-! ## Claim C8: the overscan row-strip -/

/-- A 3-row amplifier HDU whose data section ends at row bound `y2 = 2`
    (0-indexed exclusive) with exactly one row beyond it (`NAXIS2 = 3`). -/
def hduC8 : Bok.AmpHDU := ⟨[[1, 1], [2, 2], [3, 3]], "[1:2,1:2]", "[1:2,1:2]", 3⟩

/-- C8 fails on the code at `hduC8`: the array has a row beyond the
    declared data section (`NAXIS2 = 3` exceeds the `DATASEC` upper row
    bound 2), so the claim demands a non-`None` row-strip, but
    `extract_overscan` tests `NAXIS2 > y2 + 1` (3 > 3 is false) and
    returns `None`, silently dropping the single extra row. -/
theorem C8_overscan_rows_counterexample :
    Bok.convertfitsreg "[1:2,1:2]" = some (0, 2, 0, 2)
    ∧ hduC8.naxis2 > 2
    ∧ (Bok.extract_overscan hduC8).map (fun r => r.2.2) = some none := by
  refine ⟨rfl, by norm_num [hduC8], rfl⟩

/-- C8 amended: for every amplifier HDU whose region strings parse,
    `extract_overscan` returns a non-`None` overscan row-strip if and only
    if `NAXIS2` exceeds the `DATASEC` upper row bound `y2` by at least two
    (`NAXIS2 > y2 + 1`, i.e. at least two rows beyond the data section);
    the strip then consists of all full-width rows from `y2` to the end
    (`data[y2:,:]`); with at most one extra row the strip is `None`. -/
theorem C8_overscan_rows_amended (hdu : Bok.AmpHDU) (bx1 bx2 by1 by2 x1 x2 y1 y2 : ℤ)
    (hb : Bok.convertfitsreg hdu.biassec = some (bx1, bx2, by1, by2))
    (hd : Bok.convertfitsreg hdu.datasec = some (x1, x2, y1, y2)) :
    Bok.extract_overscan hdu
      = some (Bok.slice2 hdu.data x1 x2 y1 y2, Bok.slice2 hdu.data bx1 bx2 by1 by2,
          if hdu.naxis2 > y2 + 1 then
            some (Bok.pySlice hdu.data y2 (hdu.data.length : ℤ))
          else none)
    ∧ ((∃ strip, (Bok.extract_overscan hdu).map (fun r => r.2.2) = some (some strip))
        ↔ hdu.naxis2 > y2 + 1) := by
  have h1 : Bok.extract_overscan hdu
      = some (Bok.slice2 hdu.data x1 x2 y1 y2, Bok.slice2 hdu.data bx1 bx2 by1 by2,
          if hdu.naxis2 > y2 + 1 then
            some (Bok.pySlice hdu.data y2 (hdu.data.length : ℤ))
          else none) := by
    simp [Bok.extract_overscan, hb, hd]
  refine ⟨h1, ?_⟩
  rw [h1]
  by_cases hc : hdu.naxis2 > y2 + 1
  · simp [hc]
  · simp [hc]

/-- Witness for the amended C8 at a 4-row HDU with two rows beyond the
    data section. -/
theorem C8_overscan_rows_amended_witness :
    Bok.extract_overscan ⟨[[1], [2], [3], [4]], "[1:1,1:2]", "[1:1,1:2]", 4⟩
      = some (Bok.slice2 [[1], [2], [3], [4]] 0 1 0 2,
          Bok.slice2 [[1], [2], [3], [4]] 0 1 0 2,
          if (4 : ℤ) > 2 + 1 then
            some (Bok.pySlice [[1], [2], [3], [4]] 2 (([[1], [2], [3], [4]] :
              List (List ℚ)).length : ℤ))
          else none)
    ∧ ((∃ strip, (Bok.extract_overscan
          ⟨[[1], [2], [3], [4]], "[1:1,1:2]", "[1:1,1:2]", 4⟩).map (fun r => r.2.2)
          = some (some strip))
        ↔ (4 : ℤ) > 2 + 1) :=
  C8_overscan_rows_amended ⟨[[1], [2], [3], [4]], "[1:1,1:2]", "[1:1,1:2]", 4⟩
    0 1 0 2 0 1 0 2 rfl rfl

/-! ## Claim C2 -/

/-- C2: in `combine_ccds` (with sky gain correction on), the first CCD
    processed receives `skyIn = None`, hence an inter-CCD factor
    `CCDGAIN3` of exactly 1.0; its center-amplifier (`IM4`) sky count —
    the sigma-clipped mean over the inter-CCD statistics region, times its
    nominal gain and its intra-CCD factor (reference amplifier `IM2`) — is
    exactly the `skyIn` value passed to the gain balancing of CCDs 2, 3
    and 4. -/
theorem C2_first_ccd_reference_propagation (inFits : String → List (List ℚ))
    (hdrOf : String → List (String × ℚ)) (inputGain : String → ℚ)
    (ampReg ccdReg : ℤ × ℤ × ℤ × ℤ) (clipIters : ℕ) (clipSig : ℚ) :
    ∃ r1 r2 r3 r4 : Bok.GainResult,
      Bok.combine_ccds_run inFits hdrOf inputGain true ampReg ccdReg clipIters clipSig
        = [(none, r1), (r1.skyCounts, r2), (r1.skyCounts, r3), (r1.skyCounts, r4)]
      ∧ r1.hdr.lookup "CCDGAIN3" = some 1
      ∧ r1.skyCounts = some
          (Bok.skyEst (Bok.regionPixels (inFits "IM4") ccdReg) clipIters clipSig
            * (inputGain "IM4" *
              ((Bok.skyEst (Bok.regionPixels (inFits "IM2") ampReg) clipIters clipSig
                  * inputGain "IM2")
                / (Bok.skyEst (Bok.regionPixels (inFits "IM4") ampReg) clipIters clipSig
                  * inputGain "IM4")))) :=
  ⟨_, _, _, _, rfl, rfl, rfl⟩

/-! ## Claim C6 -/

/-- C6: with sky-based gain correction disabled, `multiply_gain`
    multiplies every amplifier image by exactly its nominal input gain and
    records exactly those gains in the header (`GAIN..1` keys), with no
    intra-CCD (`GAIN..2`) or inter-CCD (`CCDGAIN3`) factor and no sky
    count; and with it enabled, when all 4 amplifiers of a CCD have the
    same (nonzero) measured sky level after nominal gain, the recorded
    intra-CCD factors `GAIN..2` all equal exactly 1.0 (stated for the CCD1
    group with its reference amplifier `IM2`). -/
theorem C6_nominal_gains_and_unit_intra_factors
    (inFits : String → List (List ℚ)) (inputGain : String → ℚ)
    (hdr0 : List (String × ℚ)) (ampReg ccdReg : ℤ × ℤ × ℤ × ℤ)
    (clipIters : ℕ) (clipSig : ℚ) (skyIn : Option ℚ) (refAmp : String)
    (e1 e2 e3 e4 : String)
    (h12 : (Bok.skyEst (Bok.regionPixels (inFits "IM1") ampReg) clipIters clipSig
        * inputGain "IM1") = (Bok.skyEst (Bok.regionPixels (inFits "IM2") ampReg) clipIters clipSig
        * inputGain "IM2"))
    (h23 : (Bok.skyEst (Bok.regionPixels (inFits "IM2") ampReg) clipIters clipSig
        * inputGain "IM2") = (Bok.skyEst (Bok.regionPixels (inFits "IM3") ampReg) clipIters clipSig
        * inputGain "IM3"))
    (h34 : (Bok.skyEst (Bok.regionPixels (inFits "IM3") ampReg) clipIters clipSig
        * inputGain "IM3") = (Bok.skyEst (Bok.regionPixels (inFits "IM4") ampReg) clipIters clipSig
        * inputGain "IM4"))
    (hnz : (Bok.skyEst (Bok.regionPixels (inFits "IM2") ampReg) clipIters clipSig
        * inputGain "IM2") ≠ 0) :
    (Bok.multiply_gain inFits [e1, e2, e3, e4] hdr0 false inputGain ampReg ccdReg
        clipIters clipSig skyIn refAmp
      = { ampIms := [Bok.imScale (inputGain e1) (inFits e1),
            Bok.imScale (inputGain e2) (inFits e2),
            Bok.imScale (inputGain e3) (inFits e3),
            Bok.imScale (inputGain e4) (inFits e4)]
          skyCounts := none
          hdr := Bok.hdrSet (Bok.hdrSet (Bok.hdrSet (Bok.hdrSet hdr0
            (Bok.gainKey e1 0 "1") (inputGain e1))
            (Bok.gainKey e2 1 "1") (inputGain e2))
            (Bok.gainKey e3 2 "1") (inputGain e3))
            (Bok.gainKey e4 3 "1") (inputGain e4) })
    ∧ ((Bok.multiply_gain inFits ["IM1", "IM2", "IM3", "IM4"] hdr0 true inputGain
          ampReg ccdReg clipIters clipSig skyIn "IM2").hdr.lookup "GAIN01A2" = some 1
      ∧ (Bok.multiply_gain inFits ["IM1", "IM2", "IM3", "IM4"] hdr0 true inputGain
          ampReg ccdReg clipIters clipSig skyIn "IM2").hdr.lookup "GAIN02B2" = some 1
      ∧ (Bok.multiply_gain inFits ["IM1", "IM2", "IM3", "IM4"] hdr0 true inputGain
          ampReg ccdReg clipIters clipSig skyIn "IM2").hdr.lookup "GAIN03C2" = some 1
      ∧ (Bok.multiply_gain inFits ["IM1", "IM2", "IM3", "IM4"] hdr0 true inputGain
          ampReg ccdReg clipIters clipSig skyIn "IM2").hdr.lookup "GAIN04D2" = some 1) := by
  refine ⟨rfl, ?_, ?_, ?_, ?_⟩
  · have e : List.lookup "GAIN01A2" (Bok.multiply_gain inFits ["IM1", "IM2", "IM3", "IM4"]
        hdr0 true inputGain ampReg ccdReg clipIters clipSig skyIn "IM2").hdr
        = some ((Bok.skyEst (Bok.regionPixels (inFits "IM2") ampReg) clipIters clipSig
        * inputGain "IM2") / (Bok.skyEst (Bok.regionPixels (inFits "IM1") ampReg) clipIters clipSig
        * inputGain "IM1")) := rfl
    rw [e, h12, div_self hnz]
  · have e : List.lookup "GAIN02B2" (Bok.multiply_gain inFits ["IM1", "IM2", "IM3", "IM4"]
        hdr0 true inputGain ampReg ccdReg clipIters clipSig skyIn "IM2").hdr
        = some ((Bok.skyEst (Bok.regionPixels (inFits "IM2") ampReg) clipIters clipSig
        * inputGain "IM2") / (Bok.skyEst (Bok.regionPixels (inFits "IM2") ampReg) clipIters clipSig
        * inputGain "IM2")) := rfl
    rw [e, div_self hnz]
  · have e : List.lookup "GAIN03C2" (Bok.multiply_gain inFits ["IM1", "IM2", "IM3", "IM4"]
        hdr0 true inputGain ampReg ccdReg clipIters clipSig skyIn "IM2").hdr
        = some ((Bok.skyEst (Bok.regionPixels (inFits "IM2") ampReg) clipIters clipSig
        * inputGain "IM2") / (Bok.skyEst (Bok.regionPixels (inFits "IM3") ampReg) clipIters clipSig
        * inputGain "IM3")) := rfl
    rw [e, ← h23, div_self hnz]
  · have e : List.lookup "GAIN04D2" (Bok.multiply_gain inFits ["IM1", "IM2", "IM3", "IM4"]
        hdr0 true inputGain ampReg ccdReg clipIters clipSig skyIn "IM2").hdr
        = some ((Bok.skyEst (Bok.regionPixels (inFits "IM2") ampReg) clipIters clipSig
        * inputGain "IM2") / (Bok.skyEst (Bok.regionPixels (inFits "IM4") ampReg) clipIters clipSig
        * inputGain "IM4")) := rfl
    rw [e, ← (h23.trans h34), div_self hnz]

/-- Witness for C6: constant 1×1 amplifier images of value 4, unit nominal
    gains, single-pixel statistics regions. -/
theorem C6_nominal_gains_and_unit_intra_factors_witness :
    (Bok.multiply_gain (fun _ => [[4]]) ["IM1", "IM2", "IM3", "IM4"] [] false
        (fun _ => 1) (0, 1, 0, 1) (0, 1, 0, 1) 1 (5/2) none "IM2"
      = { ampIms := [Bok.imScale ((fun (_ : String) => (1 : ℚ)) "IM1") [[4]],
            Bok.imScale ((fun (_ : String) => (1 : ℚ)) "IM2") [[4]],
            Bok.imScale ((fun (_ : String) => (1 : ℚ)) "IM3") [[4]],
            Bok.imScale ((fun (_ : String) => (1 : ℚ)) "IM4") [[4]]]
          skyCounts := none
          hdr := Bok.hdrSet (Bok.hdrSet (Bok.hdrSet (Bok.hdrSet []
            (Bok.gainKey "IM1" 0 "1") 1) (Bok.gainKey "IM2" 1 "1") 1)
            (Bok.gainKey "IM3" 2 "1") 1) (Bok.gainKey "IM4" 3 "1") 1 })
    ∧ ((Bok.multiply_gain (fun _ => [[4]]) ["IM1", "IM2", "IM3", "IM4"] [] true
          (fun _ => 1) (0, 1, 0, 1) (0, 1, 0, 1) 1 (5/2) none "IM2").hdr.lookup
          "GAIN01A2" = some 1
      ∧ (Bok.multiply_gain (fun _ => [[4]]) ["IM1", "IM2", "IM3", "IM4"] [] true
          (fun _ => 1) (0, 1, 0, 1) (0, 1, 0, 1) 1 (5/2) none "IM2").hdr.lookup
          "GAIN02B2" = some 1
      ∧ (Bok.multiply_gain (fun _ => [[4]]) ["IM1", "IM2", "IM3", "IM4"] [] true
          (fun _ => 1) (0, 1, 0, 1) (0, 1, 0, 1) 1 (5/2) none "IM2").hdr.lookup
          "GAIN03C2" = some 1
      ∧ (Bok.multiply_gain (fun _ => [[4]]) ["IM1", "IM2", "IM3", "IM4"] [] true
          (fun _ => 1) (0, 1, 0, 1) (0, 1, 0, 1) 1 (5/2) none "IM2").hdr.lookup
          "GAIN04D2" = some 1) :=
  C6_nominal_gains_and_unit_intra_factors (fun _ => [[4]]) (fun _ => 1) []
    (0, 1, 0, 1) (0, 1, 0, 1) 1 (5/2) none "IM2" "IM1" "IM2" "IM3" "IM4"
    rfl rfl rfl (by with_unfolding_all decide)

/-! ## Claim C4: mosaic assembly geometry -/

namespace Bok

theorem fliplr_px (m : Img) (i j : ℕ) : (fliplr m).px i j = m.px i (m.nx - 1 - j) := rfl

theorem flipud_px (m : Img) (i j : ℕ) : (flipud m).px i j = m.px (m.ny - 1 - i) j := rfl

theorem rot180_px (m : Img) (i j : ℕ) :
    (rot90n m 2).px i j = m.px (m.ny - 1 - i) (m.nx - 1 - j) := rfl

theorem orient_center_ccd1 (im1 im2 im3 im4 : Img) :
    orient_mosaic_im im1 im2 im3 im4 1 "center"
      = fliplr (orient_mosaic_im im1 im2 im3 im4 1 "lower left") := rfl

theorem orient_center_ccd2 (im1 im2 im3 im4 : Img) :
    orient_mosaic_im im1 im2 im3 im4 2 "center"
      = rot90n (orient_mosaic_im im1 im2 im3 im4 2 "lower left") 2 := rfl

theorem orient_center_ccd4 (im1 im2 im3 im4 : Img) :
    orient_mosaic_im im1 im2 im3 im4 4 "center"
      = flipud (orient_mosaic_im im1 im2 im3 im4 4 "lower left") := rfl

end Bok

/-- C4: for every 4-tuple of same-shape (`r × c`) amplifier images, the
    assembled mosaic is `2c × 2r`; its pixel `(i,j)` comes from the fixed
    per-image transforms tiled 2×2 — top row images 2 and 4, bottom row
    images 1 and 3, with image 2 flip-vertical after a 90° rotation
    (transpose: `p2 j i`), image 4 rotated 270°, image 1 rotated 90°, and
    image 3 horizontal-flip after a 90° rotation; under the `center`
    origin convention the whole mosaic is further transformed per CCD
    number: CCD1 horizontal flip, CCD2 180° rotation, CCD3 unchanged,
    CCD4 vertical flip. -/
theorem C4_mosaic_orientation (r c : ℕ) (p1 p2 p3 p4 : ℕ → ℕ → ℚ) :
    ((Bok.orient_mosaic_im ⟨r, c, p1⟩ ⟨r, c, p2⟩ ⟨r, c, p3⟩ ⟨r, c, p4⟩ 1
        "lower left").ny = 2 * c
      ∧ (Bok.orient_mosaic_im ⟨r, c, p1⟩ ⟨r, c, p2⟩ ⟨r, c, p3⟩ ⟨r, c, p4⟩ 1
        "lower left").nx = 2 * r)
    ∧ (∀ i j, i < 2 * c → j < 2 * r →
      (Bok.orient_mosaic_im ⟨r, c, p1⟩ ⟨r, c, p2⟩ ⟨r, c, p3⟩ ⟨r, c, p4⟩ 1
        "lower left").px i j
        = if i < c then
            (if j < r then p2 j i else p4 (r - 1 - (j - r)) i)
          else
            (if j < r then p1 j (c - 1 - (i - c))
             else p3 (r - 1 - (j - r)) (c - 1 - (i - c))))
    ∧ (∀ i j, (Bok.orient_mosaic_im ⟨r, c, p1⟩ ⟨r, c, p2⟩ ⟨r, c, p3⟩ ⟨r, c, p4⟩ 1
        "center").px i j
      = (Bok.orient_mosaic_im ⟨r, c, p1⟩ ⟨r, c, p2⟩ ⟨r, c, p3⟩ ⟨r, c, p4⟩ 1
          "lower left").px i (2 * r - 1 - j))
    ∧ (∀ i j, (Bok.orient_mosaic_im ⟨r, c, p1⟩ ⟨r, c, p2⟩ ⟨r, c, p3⟩ ⟨r, c, p4⟩ 2
        "center").px i j
      = (Bok.orient_mosaic_im ⟨r, c, p1⟩ ⟨r, c, p2⟩ ⟨r, c, p3⟩ ⟨r, c, p4⟩ 2
          "lower left").px (2 * c - 1 - i) (2 * r - 1 - j))
    ∧ ((Bok.orient_mosaic_im ⟨r, c, p1⟩ ⟨r, c, p2⟩ ⟨r, c, p3⟩ ⟨r, c, p4⟩ 3 "center")
      = (Bok.orient_mosaic_im ⟨r, c, p1⟩ ⟨r, c, p2⟩ ⟨r, c, p3⟩ ⟨r, c, p4⟩ 3
          "lower left"))
    ∧ (∀ i j, (Bok.orient_mosaic_im ⟨r, c, p1⟩ ⟨r, c, p2⟩ ⟨r, c, p3⟩ ⟨r, c, p4⟩ 4
        "center").px i j
      = (Bok.orient_mosaic_im ⟨r, c, p1⟩ ⟨r, c, p2⟩ ⟨r, c, p3⟩ ⟨r, c, p4⟩ 4
          "lower left").px (2 * c - 1 - i) j) := by
  have hnx : ∀ k : ℕ, (Bok.orient_mosaic_im ⟨r, c, p1⟩ ⟨r, c, p2⟩ ⟨r, c, p3⟩
      ⟨r, c, p4⟩ k "lower left").nx = 2 * r := by
    intro k
    show r + r = 2 * r
    omega
  have hny : ∀ k : ℕ, (Bok.orient_mosaic_im ⟨r, c, p1⟩ ⟨r, c, p2⟩ ⟨r, c, p3⟩
      ⟨r, c, p4⟩ k "lower left").ny = 2 * c := by
    intro k
    show c + c = 2 * c
    omega
  refine ⟨⟨hny 1, hnx 1⟩, ?_, ?_, ?_, rfl, ?_⟩
  · intro i j hi hj
    simp only [Bok.orient_mosaic_im, Bok.vstack, Bok.hstack, Bok.flipud, Bok.fliplr,
      Bok.rot90n, Bok.rot90]
    norm_num
    split_ifs <;> (congr 1 <;> omega)
  · intro i j
    rw [Bok.orient_center_ccd1, Bok.fliplr_px, hnx 1]
  · intro i j
    rw [Bok.orient_center_ccd2, Bok.rot180_px, hnx 2, hny 2]
  · intro i j
    rw [Bok.orient_center_ccd4, Bok.flipud_px, hny 4]

/-! ## Claim C3: sky subtraction removes only the gradient -/

namespace Bok

theorem sum_map_add_comp {α : Type} (l : List α) (h : α → ℚ) (c : ℚ) :
    (l.map (fun p => h p + c)).sum = (l.map h).sum + c * l.length := by
  induction l with
  | nil => simp
  | cons a t ih =>
    simp only [List.map_cons, List.sum_cons, List.length_cons, ih]
    push_cast
    ring

theorem sum_map_mul_add {α : Type} (l : List α) (f h : α → ℚ) (c : ℚ) :
    (l.map (fun p => f p * (h p + c))).sum
      = (l.map (fun p => f p * h p)).sum + c * (l.map f).sum := by
  induction l with
  | nil => simp
  | cons a t ih =>
    simp only [List.map_cons, List.sum_cons, ih]
    ring

theorem listMean_map_add (l : List ℚ) (c : ℚ) (h : l ≠ []) :
    listMean (l.map (fun x => x + c)) = listMean l + c := by
  have hl : (l.length : ℚ) ≠ 0 := by
    simpa using (List.length_pos.mpr h).ne'
  have hs : (l.map (fun x => x + c)).sum = l.sum + c * l.length := by
    simpa using sum_map_add_comp l id c
  simp only [listMean, List.length_map, hs]
  field_simp

theorem listVar_map_add (l : List ℚ) (c : ℚ) :
    listVar (l.map (fun x => x + c)) = listVar l := by
  by_cases h : l = []
  · subst h; rfl
  · simp only [listVar, List.length_map, List.map_map, listMean_map_add l c h]
    congr 1
    refine congrArg List.sum ?_
    apply List.map_congr_left
    intro x _
    simp only [Function.comp_apply]
    ring_nf

theorem sumS_shift (pts : List (ℚ × ℚ × ℚ)) (c : ℚ) :
    sumS (pts.map (shiftPt c)) = sumS pts := by
  simp [sumS]

theorem sumX_shift (pts : List (ℚ × ℚ × ℚ)) (c : ℚ) :
    sumX (pts.map (shiftPt c)) = sumX pts := by
  simp only [sumX, List.map_map]
  rfl

theorem sumY_shift (pts : List (ℚ × ℚ × ℚ)) (c : ℚ) :
    sumY (pts.map (shiftPt c)) = sumY pts := by
  simp only [sumY, List.map_map]
  rfl

theorem sumXX_shift (pts : List (ℚ × ℚ × ℚ)) (c : ℚ) :
    sumXX (pts.map (shiftPt c)) = sumXX pts := by
  simp only [sumXX, List.map_map]
  rfl

theorem sumXY_shift (pts : List (ℚ × ℚ × ℚ)) (c : ℚ) :
    sumXY (pts.map (shiftPt c)) = sumXY pts := by
  simp only [sumXY, List.map_map]
  rfl

theorem sumYY_shift (pts : List (ℚ × ℚ × ℚ)) (c : ℚ) :
    sumYY (pts.map (shiftPt c)) = sumYY pts := by
  simp only [sumYY, List.map_map]
  rfl

theorem sumV_shift (pts : List (ℚ × ℚ × ℚ)) (c : ℚ) :
    sumV (pts.map (shiftPt c)) = sumV pts + c * sumS pts := by
  simp only [sumV, sumS, List.map_map]
  have h : pts.map ((fun p : ℚ × ℚ × ℚ => p.2.2) ∘ shiftPt c)
      = pts.map (fun p => p.2.2 + c) := rfl
  rw [h, sum_map_add_comp]

theorem sumXV_shift (pts : List (ℚ × ℚ × ℚ)) (c : ℚ) :
    sumXV (pts.map (shiftPt c)) = sumXV pts + c * sumX pts := by
  simp only [sumXV, sumX, List.map_map]
  have h : pts.map ((fun p : ℚ × ℚ × ℚ => p.1 * p.2.2) ∘ shiftPt c)
      = pts.map (fun p => p.1 * (p.2.2 + c)) := rfl
  rw [h, sum_map_mul_add]

theorem sumYV_shift (pts : List (ℚ × ℚ × ℚ)) (c : ℚ) :
    sumYV (pts.map (shiftPt c)) = sumYV pts + c * sumY pts := by
  simp only [sumYV, sumY, List.map_map]
  have h : pts.map ((fun p : ℚ × ℚ × ℚ => p.2.1 * p.2.2) ∘ shiftPt c)
      = pts.map (fun p => p.2.1 * (p.2.2 + c)) := rfl
  rw [h, sum_map_mul_add]

theorem lsqDet_shift (pts : List (ℚ × ℚ × ℚ)) (c : ℚ) :
    lsqDet (pts.map (shiftPt c)) = lsqDet pts := by
  simp only [lsqDet, sumS_shift, sumX_shift, sumY_shift, sumXX_shift,
    sumXY_shift, sumYY_shift]

/-- Shifting every data value by `c` shifts the fitted constant
    coefficient by `c` and leaves the gradient coefficients unchanged
    (the design matrix has a constant column). -/
theorem lsqFit_shift (pts : List (ℚ × ℚ × ℚ)) (c : ℚ) (h : lsqDet pts ≠ 0) :
    lsqFit (pts.map (shiftPt c))
      = ⟨(lsqFit pts).c0 + c, (lsqFit pts).c1, (lsqFit pts).c2⟩ := by
  simp only [lsqFit, lsqDet_shift, if_neg h, sumS_shift, sumX_shift, sumY_shift,
    sumXX_shift, sumXY_shift, sumYY_shift, sumV_shift, sumXV_shift, sumYV_shift]
  refine Fit3.mk.injEq _ _ _ _ _ _ ▸ ?_
  refine ⟨?_, ?_, ?_⟩
  · have hnum : det3 (sumV pts + c * sumS pts) (sumX pts) (sumY pts)
        (sumXV pts + c * sumX pts) (sumXX pts) (sumXY pts)
        (sumYV pts + c * sumY pts) (sumXY pts) (sumYY pts)
        = det3 (sumV pts) (sumX pts) (sumY pts)
            (sumXV pts) (sumXX pts) (sumXY pts)
            (sumYV pts) (sumXY pts) (sumYY pts) + c * lsqDet pts := by
      simp only [det3, lsqDet]
      ring
    rw [hnum, add_div, mul_div_assoc, div_self h, mul_one]
  · congr 1
    simp only [det3]
    ring
  · congr 1
    simp only [det3]
    ring

theorem filterMap_congr2 {α β : Type} {l : List α} {f g : α → Option β}
    (h : ∀ x ∈ l, f x = g x) : l.filterMap f = l.filterMap g := by
  induction l with
  | nil => rfl
  | cons a t ih =>
    simp only [List.filterMap_cons]
    rw [h a (List.mem_cons_self a t), ih (fun x hx => h x (List.mem_cons_of_mem a hx))]

theorem flatMap_congr2 {α β : Type} {l : List α} {f g : α → List β}
    (h : ∀ x ∈ l, f x = g x) : l.flatMap f = l.flatMap g := by
  induction l with
  | nil => rfl
  | cons a t ih =>
    simp only [List.flatMap_cons]
    rw [h a (List.mem_cons_self a t), ih (fun x hx => h x (List.mem_cons_of_mem a hx))]

theorem gridVals_congr (F : CCDFrame) (nbin : ℕ) {m1 m2 : ℕ → ℕ → Bool}
    (h : ∀ i j, i < F.ny / nbin * nbin → j < F.nx / nbin * nbin → m1 i j = m2 i j) :
    gridVals F nbin m1 = gridVals F nbin m2 := by
  unfold gridVals
  apply flatMap_congr2
  intro i hi
  apply filterMap_congr2
  intro j hj
  rw [h i j (List.mem_range.mp hi) (List.mem_range.mp hj)]

theorem gridVals_shift (F : CCDFrame) (nbin : ℕ) (c : ℚ) (mk : ℕ → ℕ → Bool) :
    gridVals (shiftFrame F c) nbin mk = (gridVals F nbin mk).map (fun x => x + c) := by
  unfold gridVals shiftFrame
  rw [List.map_flatMap]
  apply flatMap_congr2
  intro i _
  rw [List.map_filterMap]
  apply filterMap_congr2
  intro j _
  by_cases hm : mk i j <;> simp [hm]

theorem mem_gridVals (F : CCDFrame) (nbin : ℕ) (mk : ℕ → ℕ → Bool) (i j : ℕ)
    (hi : i < F.ny / nbin * nbin) (hj : j < F.nx / nbin * nbin)
    (hm : mk i j = false) : F.data i j ∈ gridVals F nbin mk := by
  unfold gridVals
  refine List.mem_flatMap.mpr ⟨i, List.mem_range.mpr hi, ?_⟩
  refine List.mem_filterMap.mpr ⟨j, List.mem_range.mpr hj, ?_⟩
  simp [hm]

/-- Shifting the data does not change which pixels the iterated global
    sigma clip masks (on the cell-covered area). -/
theorem ccdClipMask_shift (F : CCDFrame) (nbin : ℕ) (sig : ℚ) (c : ℚ) (t : ℕ) :
    ∀ i j, i < F.ny / nbin * nbin → j < F.nx / nbin * nbin →
      ccdClipMask (shiftFrame F c) nbin sig t i j = ccdClipMask F nbin sig t i j := by
  induction t with
  | zero => intro i j _ _; rfl
  | succ t ih =>
    intro i j hi hj
    have hg : gridVals (shiftFrame F c) nbin (ccdClipMask (shiftFrame F c) nbin sig t)
        = (gridVals F nbin (ccdClipMask F nbin sig t)).map (fun x => x + c) := by
      rw [gridVals_congr (shiftFrame F c) nbin ih, gridVals_shift F nbin c _]
    show (ccdClipMask (shiftFrame F c) nbin sig t i j
        || decide (((shiftFrame F c).data i j
            - listMean (gridVals (shiftFrame F c) nbin
                (ccdClipMask (shiftFrame F c) nbin sig t))) ^ 2
          > sig ^ 2 * listVar (gridVals (shiftFrame F c) nbin
              (ccdClipMask (shiftFrame F c) nbin sig t))))
      = (ccdClipMask F nbin sig t i j
        || decide ((F.data i j
            - listMean (gridVals F nbin (ccdClipMask F nbin sig t))) ^ 2
          > sig ^ 2 * listVar (gridVals F nbin (ccdClipMask F nbin sig t))))
    rw [ih i j hi hj, hg]
    by_cases hvals : gridVals F nbin (ccdClipMask F nbin sig t) = []
    · cases hb : ccdClipMask F nbin sig t i j
      · exact absurd (hvals ▸ mem_gridVals F nbin _ i j hi hj hb)
          (List.not_mem_nil _)
      · simp
    · rw [listMean_map_add _ c hvals, listVar_map_add]
      have harith : (shiftFrame F c).data i j
          - (listMean (gridVals F nbin (ccdClipMask F nbin sig t)) + c)
          = F.data i j - listMean (gridVals F nbin (ccdClipMask F nbin sig t)) := by
        show F.data i j + c - _ = _
        ring
      rw [harith]

theorem cellNbad_congr {nbin : ℕ} {m1 m2 : ℕ → ℕ → Bool} {I J : ℕ}
    (h : ∀ a, a < nbin → ∀ b, b < nbin →
      m1 (I * nbin + a) (J * nbin + b) = m2 (I * nbin + a) (J * nbin + b)) :
    cellNbad nbin m1 I J = cellNbad nbin m2 I J := by
  unfold cellNbad
  congr 1
  apply List.map_congr_left
  intro a ha
  congr 1
  apply List.filter_congr
  intro b hb
  rw [h a (List.mem_range.mp ha) b (List.mem_range.mp hb)]

theorem cellSurvivors_congr (F : CCDFrame) {nbin : ℕ} {m1 m2 : ℕ → ℕ → Bool}
    {I J : ℕ}
    (h : ∀ a, a < nbin → ∀ b, b < nbin →
      m1 (I * nbin + a) (J * nbin + b) = m2 (I * nbin + a) (J * nbin + b)) :
    cellSurvivors F nbin m1 I J = cellSurvivors F nbin m2 I J := by
  unfold cellSurvivors
  apply flatMap_congr2
  intro a ha
  apply filterMap_congr2
  intro b hb
  rw [h a (List.mem_range.mp ha) b (List.mem_range.mp hb)]

theorem cellSurvivors_shift (F : CCDFrame) (nbin : ℕ) (c : ℚ)
    (mk : ℕ → ℕ → Bool) (I J : ℕ) :
    cellSurvivors (shiftFrame F c) nbin mk I J
      = (cellSurvivors F nbin mk I J).map (fun x => x + c) := by
  unfold cellSurvivors shiftFrame
  rw [List.map_flatMap]
  apply flatMap_congr2
  intro a _
  rw [List.map_filterMap]
  apply filterMap_congr2
  intro b _
  by_cases hm : mk (I * nbin + a) (J * nbin + b) <;> simp [hm]

theorem cell_pixel_in_range {y nbin I a : ℕ} (hI : I < y / nbin) (ha : a < nbin) :
    I * nbin + a < y / nbin * nbin := by
  have h1 : I * nbin + a < (I + 1) * nbin := by
    rw [Nat.succ_mul]
    omega
  have h2 : (I + 1) * nbin ≤ y / nbin * nbin :=
    Nat.mul_le_mul_right nbin (by omega)
  omega

/-- Shifting the data shifts every kept cell's fit point value by `c`
    (same cells kept, same coordinates), provided every kept cell has at
    least one surviving pixel. -/
theorem ccdPoints_shift (F : CCDFrame) (nbin : ℕ) (c : ℚ)
    (Hc : ∀ I, I < F.ny / nbin → ∀ J, J < F.nx / nbin →
      ¬ (cellNbad nbin (ccdClipMask F nbin (5/2) 2) I J < nbin * 2 / 3) →
      cellSurvivors F nbin (ccdClipMask F nbin (5/2) 2) I J ≠ []) :
    ccdPoints (shiftFrame F c) nbin = (ccdPoints F nbin).map (shiftPt c) := by
  unfold ccdPoints
  rw [List.map_flatMap]
  apply flatMap_congr2
  intro I hI
  rw [List.map_filterMap]
  apply filterMap_congr2
  intro J hJ
  have hI2 := List.mem_range.mp hI
  have hJ2 := List.mem_range.mp hJ
  have hmk : ∀ a, a < nbin → ∀ b, b < nbin →
      ccdClipMask (shiftFrame F c) nbin (5/2) 2 (I * nbin + a) (J * nbin + b)
        = ccdClipMask F nbin (5/2) 2 (I * nbin + a) (J * nbin + b) := by
    intro a ha b hb
    exact ccdClipMask_shift F nbin (5/2) c 2 _ _
      (cell_pixel_in_range hI2 ha) (cell_pixel_in_range hJ2 hb)
  have hnbad : cellNbad nbin (ccdClipMask (shiftFrame F c) nbin (5/2) 2) I J
      = cellNbad nbin (ccdClipMask F nbin (5/2) 2) I J := cellNbad_congr hmk
  have hsurv : cellSurvivors (shiftFrame F c) nbin
      (ccdClipMask (shiftFrame F c) nbin (5/2) 2) I J
      = (cellSurvivors F nbin (ccdClipMask F nbin (5/2) 2) I J).map
          (fun x => x + c) := by
    rw [cellSurvivors_congr (shiftFrame F c) hmk, cellSurvivors_shift]
  rw [hnbad, hsurv]
  by_cases hk : cellNbad nbin (ccdClipMask F nbin (5/2) 2) I J < nbin * 2 / 3
  · simp [hk]
  · rw [if_neg hk, if_neg hk]
    rw [listMean_map_add _ c (Hc I hI2 J hJ2 hk)]
    rfl

theorem allPoints_shift (m : Mosaic) (nbin : ℕ) (c : ℚ)
    (Hc : ∀ k : Fin 4, ∀ I, I < (m k).ny / nbin → ∀ J, J < (m k).nx / nbin →
      ¬ (cellNbad nbin (ccdClipMask (m k) nbin (5/2) 2) I J < nbin * 2 / 3) →
      cellSurvivors (m k) nbin (ccdClipMask (m k) nbin (5/2) 2) I J ≠ []) :
    allPoints (shiftMosaic m c) nbin = (allPoints m nbin).map (shiftPt c) := by
  unfold allPoints shiftMosaic
  rw [List.map_flatMap]
  apply flatMap_congr2
  intro k _
  exact ccdPoints_shift (m k) nbin c (Hc k)

end Bok

/-- C3: for every input mosaic and every CCD extension, `subtract_sky`
    writes output pixels equal to the input pixels minus (the fitted 2-D
    sky polynomial at that pixel's sky coordinates minus its value at the
    coordinate origin), and returns the origin value as the `SKYVAL`
    header entry; consequently — whenever the sky fit is nondegenerate and
    every kept cell has a surviving pixel — adding a constant to every
    input pixel changes every output pixel by exactly that constant (only
    the gradient is removed, the absolute sky level is preserved; the
    recorded `SKYVAL` absorbs the constant).  Proved for every rebinning
    factor; `subtract_sky` is the `nbin = 64` instance hard-coded in the
    source. -/
theorem C3_subtract_sky_gradient_only (nbin : ℕ) (m : Bok.Mosaic) (c : ℚ)
    (Hdet : Bok.lsqDet (Bok.allPoints m nbin) ≠ 0)
    (Hc : ∀ k : Fin 4, ∀ I, I < (m k).ny / nbin → ∀ J, J < (m k).nx / nbin →
      ¬ (Bok.cellNbad nbin (Bok.ccdClipMask (m k) nbin (5/2) 2) I J < nbin * 2 / 3) →
      Bok.cellSurvivors (m k) nbin (Bok.ccdClipMask (m k) nbin (5/2) 2) I J ≠ []) :
    (∀ m2 : Bok.Mosaic, Bok.subtract_sky m2 = Bok.subtract_sky_ccds 64 m2)
    ∧ (∀ (k : Fin 4) (i j : ℕ), (Bok.subtract_sky_ccds nbin m).1 k i j
        = (m k).data i j
          - (Bok.polyEval (Bok.bok_polyfit m nbin) (Bok.xCoord (m k).hdr j)
              (Bok.yCoord (m k).hdr i)
            - Bok.polyEval (Bok.bok_polyfit m nbin) 0 0))
    ∧ ((Bok.subtract_sky_ccds nbin m).2 = Bok.polyEval (Bok.bok_polyfit m nbin) 0 0)
    ∧ (∀ (k : Fin 4) (i j : ℕ),
        (Bok.subtract_sky_ccds nbin (Bok.shiftMosaic m c)).1 k i j
          = (Bok.subtract_sky_ccds nbin m).1 k i j + c)
    ∧ ((Bok.subtract_sky_ccds nbin (Bok.shiftMosaic m c)).2
        = (Bok.subtract_sky_ccds nbin m).2 + c) := by
  have hfit : Bok.bok_polyfit (Bok.shiftMosaic m c) nbin
      = ⟨(Bok.bok_polyfit m nbin).c0 + c, (Bok.bok_polyfit m nbin).c1,
        (Bok.bok_polyfit m nbin).c2⟩ := by
    unfold Bok.bok_polyfit
    rw [Bok.allPoints_shift m nbin c Hc, Bok.lsqFit_shift _ _ Hdet]
  have h0 : (Bok.bok_polyfit (Bok.shiftMosaic m c) nbin).c0
      = (Bok.bok_polyfit m nbin).c0 + c := by rw [hfit]
  have h1 : (Bok.bok_polyfit (Bok.shiftMosaic m c) nbin).c1
      = (Bok.bok_polyfit m nbin).c1 := by rw [hfit]
  have h2 : (Bok.bok_polyfit (Bok.shiftMosaic m c) nbin).c2
      = (Bok.bok_polyfit m nbin).c2 := by rw [hfit]
  refine ⟨fun _ => rfl, fun k i j => rfl, rfl, ?_, ?_⟩
  · intro k i j
    simp only [Bok.subtract_sky_ccds, Bok.polyEval, Bok.shiftMosaic, Bok.shiftFrame]
    rw [h0, h1, h2]
    ring
  · simp only [Bok.subtract_sky_ccds, Bok.polyEval]
    rw [h0, h1, h2]
    ring

/-- Witness headers: unit plate scale, distinct reference pixels so the
    four cell centers are not collinear. -/
def hdrC3 : Fin 4 → Bok.SkyHdr
  | 0 => ⟨0, 0, 1, 0, 0, 1⟩
  | 1 => ⟨1, 0, 1, 0, 0, 1⟩
  | 2 => ⟨0, 1, 1, 0, 0, 1⟩
  | 3 => ⟨2, 2, 1, 0, 0, 1⟩

/-- Witness mosaic: four 2×2 CCDs of constant value 5, pixel (0,0) of
    each masked so every cell is kept at `nbin = 2`. -/
def mosaicC3 : Bok.Mosaic :=
  fun k => ⟨2, 2, fun _ _ => 5, fun i j => decide (i = 0 ∧ j = 0), hdrC3 k⟩

/-- Witness for C3 at `nbin = 2`, `c = 3` on `mosaicC3` (normal-matrix
    determinant 18). -/
theorem C3_subtract_sky_gradient_only_witness :
    (∀ m2 : Bok.Mosaic, Bok.subtract_sky m2 = Bok.subtract_sky_ccds 64 m2)
    ∧ (∀ (k : Fin 4) (i j : ℕ), (Bok.subtract_sky_ccds 2 mosaicC3).1 k i j
        = (mosaicC3 k).data i j
          - (Bok.polyEval (Bok.bok_polyfit mosaicC3 2) (Bok.xCoord (mosaicC3 k).hdr j)
              (Bok.yCoord (mosaicC3 k).hdr i)
            - Bok.polyEval (Bok.bok_polyfit mosaicC3 2) 0 0))
    ∧ ((Bok.subtract_sky_ccds 2 mosaicC3).2
        = Bok.polyEval (Bok.bok_polyfit mosaicC3 2) 0 0)
    ∧ (∀ (k : Fin 4) (i j : ℕ),
        (Bok.subtract_sky_ccds 2 (Bok.shiftMosaic mosaicC3 3)).1 k i j
          = (Bok.subtract_sky_ccds 2 mosaicC3).1 k i j + 3)
    ∧ ((Bok.subtract_sky_ccds 2 (Bok.shiftMosaic mosaicC3 3)).2
        = (Bok.subtract_sky_ccds 2 mosaicC3).2 + 3) :=
  C3_subtract_sky_gradient_only 2 mosaicC3 3
    (by with_unfolding_all decide)
    (by with_unfolding_all decide)
